import Mathlib

/-!
# A model of the yans SQLite article store

This file is a shallow embedding of `internal/backend/sqlite/sqlite.go` from
ChronosX88/yans.  The relational state (tables `groups`, `articles`,
`articles_to_groups`, `attachments_articles_mapping`) is modelled as lists of
rows in insertion (rowid) order; every backend method is translated into a
pure Lean function over that state, following the SQL text of the Go method
it embeds.

Conventions of the embedding:

* `db.Get` (first row or `sql.ErrNoRows`) is modelled as `head?` of the
  result rows, with `DbError.noRows` standing for `sql.ErrNoRows`; a query
  with no `ORDER BY` scans in rowid order, i.e. list order.
* `ORDER BY k` is modelled by the insertion sort `sortOn k`,
  `ORDER BY k DESC LIMIT 1` by `sortOn (fun r => -k r) |>.head?`.
* An article header is stored as JSON; the schema migrations are not part of
  the translated source, so the column is modelled structurally as the
  ordered multimap the JSON serialises, and
  `json_extract(header, board)` for the path `Message-Id[0]` becomes `msgId`.
  `json.Unmarshal` of a header written by this store always succeeds and is
  the identity on the structural value.
* Modelled from the spec: the `created_at` column of `articles` (its schema
  default is in the migration files, which are not under the translated
  sources); per the data model every article carries a creation timestamp,
  supplied here with the article being saved.
-/

namespace Yans

/-- An article header: the ordered header-name to ordered-values multimap
that the Go code keeps JSON-serialised in the `header` column. -/
abbrev Header := List (String × List String)

/-- Model of `json_extract(header, path Message-Id index 0)`: the first value of the
`Message-Id` header, `none` when the key or the value is absent (SQL NULL). -/
def msgId (h : Header) : Option String :=
  (h.lookup "Message-Id").bind List.head?

/-- A row of the `groups` table. -/
structure GroupRow where
  id : Nat
  name : String
  createdAt : Int
deriving DecidableEq

/-- A row of the `articles` table. -/
structure ArticleRow where
  id : Nat
  header : Header
  body : String
  thread : Option String
  createdAt : Int
deriving DecidableEq

/-- A row of the `articles_to_groups` table. -/
structure GroupMembership where
  articleId : Nat
  groupId : Nat
  articleNumber : Int
deriving DecidableEq

/-- A row of the `attachments_articles_mapping` table. -/
structure AttachmentRow where
  articleId : Nat
  contentType : String
  attachmentId : String
deriving DecidableEq

/-- The relational state: each table as its list of rows in rowid order. -/
structure DB where
  groups : List GroupRow
  articles : List ArticleRow
  memberships : List GroupMembership
  attachments : List AttachmentRow
deriving DecidableEq

/-- Model of `models.Article` as returned by the read operations: the row fields plus
the populated `ArticleNumber`. -/
structure Article where
  id : Nat
  header : Header
  body : String
  thread : Option String
  createdAt : Int
  articleNumber : Int
deriving DecidableEq

/-- Model of `models.Article` as passed to `SaveArticle`: header, body, thread,
creation timestamp and the attachment descriptors. -/
structure ArticleInput where
  header : Header
  body : String
  thread : Option String
  createdAt : Int
  attachments : List (String × String)
deriving DecidableEq

/-- Errors surfaced by the store.  `noRows` is `sql.ErrNoRows` (the NotFound
signal), `noSuchGroup` the domain error `no such newsgroup` built in
`SaveArticle`, `storeFailure` any other failure of the underlying store. -/
inductive DbError where
  | noRows
  | noSuchGroup
  | storeFailure
deriving DecidableEq

/-- Outcome of `SaveArticle`: success or error (each with the resulting
state, since the Go writes are plain statements with no transaction), or a
runtime panic (nil dereference). -/
inductive SaveResult where
  | ok (db : DB)
  | err (e : DbError) (db : DB)
  | panicked
deriving DecidableEq

/-- SQL `max` with `COALESCE(.., 0)` over the empty set. -/
def maxOr0 : List Int → Int
  | [] => 0
  | x :: xs => xs.foldl max x

/-- SQL `min` with `COALESCE(.., 0)` over the empty set. -/
def minOr0 : List Int → Int
  | [] => 0
  | x :: xs => xs.foldl min x

/-- Query `SELECT article_number FROM articles_to_groups WHERE group_id = gid`. -/
def numbersOf (db : DB) (gid : Nat) : List Int :=
  (db.memberships.filter (fun m => m.groupId == gid)).map (fun m => m.articleNumber)

/-- Row of `articles` with a given id (ids are unique rowids). -/
def findArticle (db : DB) (aid : Nat) : Option ArticleRow :=
  db.articles.find? (fun a => a.id == aid)

/-- Join `articles INNER JOIN articles_to_groups` restricted by a row predicate,
in the scan order of `articles_to_groups`. -/
def joinedRows (db : DB) (p : GroupMembership → ArticleRow → Bool) :
    List (GroupMembership × ArticleRow) :=
  db.memberships.filterMap fun m =>
    (findArticle db m.articleId).bind fun a => if p m a then some (m, a) else none

/-- Insert into a list sorted by `key`, keeping it sorted. -/
def insertSorted (key : α → Int) (x : α) : List α → List α
  | [] => [x]
  | y :: ys => if key x ≤ key y then x :: y :: ys else y :: insertSorted key x ys

/-- Clause `ORDER BY key` (ascending): insertion sort on `key`. -/
def sortOn (key : α → Int) : List α → List α
  | [] => []
  | x :: xs => insertSorted key x (sortOn key xs)

/-- Lookup `db.Get(.., "SELECT article_number FROM articles_to_groups WHERE
article_id = ?")`: the first membership row of the article, over ALL groups
(the query has no group filter). -/
def firstNum (db : DB) (aid : Nat) : Option Int :=
  ((db.memberships.filter (fun m => m.articleId == aid)).map
    (fun m => m.articleNumber)).head?

/-- The `models.Article` value the read operations build from a joined row:
row fields, parsed header, and the `ArticleNumber` from `firstNum`. -/
def populate (db : DB) (m : GroupMembership) (a : ArticleRow) : Article :=
  { id := a.id, header := a.header, body := a.body, thread := a.thread,
    createdAt := a.createdAt, articleNumber := (firstNum db m.articleId).getD 0 }

/-- Method `GetArticlesCount`: `SELECT COUNT(*) FROM articles_to_groups WHERE
group_id = ?`. -/
def GetArticlesCount (db : DB) (g : GroupRow) : Nat :=
  (db.memberships.filter (fun m => m.groupId == g.id)).length

/-- Method `GetGroupHighWaterMark`: `SELECT COALESCE(max(article_number), 0) ...`. -/
def GetGroupHighWaterMark (db : DB) (g : GroupRow) : Int :=
  maxOr0 (numbersOf db g.id)

/-- Method `GetGroupLowWaterMark`: `SELECT COALESCE(min(article_number), 0) ...`. -/
def GetGroupLowWaterMark (db : DB) (g : GroupRow) : Int :=
  minOr0 (numbersOf db g.id)

/-- Method `GetGroup`: `db.Get(.., "SELECT * FROM groups WHERE group_name = ?")`. -/
def GetGroup (db : DB) (groupName : String) : Except DbError GroupRow :=
  match (db.groups.filter (fun g => g.name == groupName)).head? with
  | none => .error .noRows
  | some g => .ok g

/-- Method `GetNewArticlesSince`: message ids of articles with
`created_at > timestamp` (no join with memberships at all). -/
def GetNewArticlesSince (db : DB) (timestamp : Int) : List String :=
  db.articles.filterMap fun a =>
    if timestamp < a.createdAt then msgId a.header else none

/-- The article `INSERT` on success: append the row with the next rowid and
return the new state together with `LastInsertId`. -/
def insertArticleRow (db : DB) (a : ArticleInput) : DB × Nat :=
  let newId := (db.articles.map (fun r => r.id)).foldl max 0 + 1
  ({ db with
      articles := db.articles ++
        [{ id := newId, header := a.header, body := a.body, thread := a.thread,
           createdAt := a.createdAt }] },
   newId)

/-- Call `db.Exec` of the article `INSERT` as the Go code sees it: a
`(res, err)` pair where `res` is nil exactly when the store failed. -/
def execInsertArticle (db : DB) (a : ArticleInput) (fails : Bool) :
    Option (DB × Nat) × Option DbError :=
  if fails then (none, some .storeFailure) else (some (insertArticleRow db a), none)

/-- Model of `strings.TrimSpace`: strip leading and trailing whitespace. -/
def trimSpace (s : String) : String :=
  ⟨((s.data.dropWhile Char.isWhitespace).reverse.dropWhile
      Char.isWhitespace).reverse⟩

/-- The group-resolution loop of `SaveArticle`: for each name, trim the
surrounding whitespace and `GetGroup`; translate `sql.ErrNoRows` to the
domain error `no such newsgroup`, pass other errors through; collect ids. -/
def resolveGroups (db : DB) : List String → Except DbError (List Nat)
  | [] => .ok []
  | v :: rest =>
    match GetGroup db (trimSpace v) with
    | .error .noRows => .error .noSuchGroup
    | .error e => .error e
    | .ok g => (resolveGroups db rest).map (fun ids => g.id :: ids)

/-- Subquery `SELECT ifnull(max(article_number)+1, 1) FROM articles_to_groups WHERE
group_id = ?` (the scalar subquery of the membership insert); `maxOr0` of
the empty set is `0`, so the empty group yields `1` exactly as `ifnull`. -/
def nextArticleNumber (db : DB) (gid : Nat) : Int :=
  maxOr0 (numbersOf db gid) + 1

/-- The membership-insert loop of `SaveArticle`: one `INSERT` per resolved
group id, each computing its number against the state it runs in. -/
def insertMemberships (db : DB) (aid : Nat) : List Nat → DB
  | [] => db
  | gid :: rest =>
    insertMemberships
      { db with
          memberships := db.memberships ++
            [{ articleId := aid, groupId := gid,
               articleNumber := nextArticleNumber db gid }] }
      aid rest

/-- The attachment-insert loop of `SaveArticle`. -/
def insertAttachments (db : DB) (aid : Nat) : List (String × String) → DB
  | [] => db
  | (ct, fn) :: rest =>
    insertAttachments
      { db with
          attachments := db.attachments ++
            [{ articleId := aid, contentType := ct, attachmentId := fn }] }
      aid rest

/-- Method `SaveArticle`, line by line.  The Go code reads `res.LastInsertId()`
before checking the `Exec` error (which it shadows unchecked), so a failed
article insert leaves `res` nil and the call panics.  The three write
phases run as independent statements with no wrapping transaction, so an
error return carries the state written so far. -/
def SaveArticle (db : DB) (a : ArticleInput) (groups : List String)
    (insertFails : Bool) : SaveResult :=
  let (res, _err) := execInsertArticle db a insertFails
  match res with
  | none => .panicked
  | some (db1, articleID) =>
    match resolveGroups db1 groups with
    | .error e => .err e db1
    | .ok groupIDs =>
      let db2 := insertMemberships db1 articleID groupIDs
      let db3 := insertAttachments db2 articleID a.attachments
      .ok db3

/-- Method `GetArticleNumbers` with its sentinel cases, in the order the Go code
tests them. -/
def GetArticleNumbers (db : DB) (g : GroupRow) (low high : Int) : List Int :=
  if high == 0 && low == 0 then
    numbersOf db g.id
  else if low == -1 && high != 0 then
    (numbersOf db g.id).filter (fun n => n == high)
  else if low != 0 && high == -1 then
    (numbersOf db g.id).filter (fun n => decide (low < n))
  else if low == -1 && high == -1 then
    []
  else
    (numbersOf db g.id).filter (fun n => decide (low < n) && decide (n < high))

/-- Method `GetLastArticleByNum`: joined row with the greatest `article_number`
below `a.ArticleNumber` in the group (`ORDER BY article_number DESC LIMIT
1`), its `ArticleNumber` then repopulated via `firstNum`. -/
def GetLastArticleByNum (db : DB) (g : GroupRow) (a : Article) :
    Except DbError Article :=
  match (sortOn (fun r => -r.1.articleNumber)
      (joinedRows db fun m _ =>
        m.groupId == g.id && decide (m.articleNumber < a.articleNumber))).head? with
  | none => .error .noRows
  | some (m, ar) =>
    match firstNum db m.articleId with
    | none => .error .noRows
    | some n =>
      .ok { id := ar.id, header := ar.header, body := ar.body, thread := ar.thread,
            createdAt := ar.createdAt, articleNumber := n }

/-- Method `GetNextArticleByNum`: joined row with the least `article_number` above
`a.ArticleNumber` in the group (`ORDER BY article_number LIMIT 1`), its
`ArticleNumber` then repopulated via `firstNum`. -/
def GetNextArticleByNum (db : DB) (g : GroupRow) (a : Article) :
    Except DbError Article :=
  match (sortOn (fun r => r.1.articleNumber)
      (joinedRows db fun m _ =>
        m.groupId == g.id && decide (a.articleNumber < m.articleNumber))).head? with
  | none => .error .noRows
  | some (m, ar) =>
    match firstNum db m.articleId with
    | none => .error .noRows
    | some n =>
      .ok { id := ar.id, header := ar.header, body := ar.body, thread := ar.thread,
            createdAt := ar.createdAt, articleNumber := n }

/-- The per-result loop of `GetArticlesByRange`: repopulate each
`ArticleNumber` via `firstNum`, returning on the first lookup that yields
no row (as the Go loop returns on the first error). -/
def populateAll (db : DB) : List (GroupMembership × ArticleRow) →
    Except DbError (List Article)
  | [] => .ok []
  | r :: rest =>
    match firstNum db r.1.articleId with
    | none => .error DbError.noRows
    | some n =>
      (populateAll db rest).map fun tail =>
        { id := r.2.id, header := r.2.header, body := r.2.body,
          thread := r.2.thread, createdAt := r.2.createdAt,
          articleNumber := n } :: tail

/-- Method `GetArticlesByRange`: joined rows with `low <= article_number <= high`
in the group, `ORDER BY article_number`, each `ArticleNumber` then
repopulated via `firstNum` (error if that lookup returns no row). -/
def GetArticlesByRange (db : DB) (g : GroupRow) (low high : Int) :
    Except DbError (List Article) :=
  populateAll db (sortOn (fun r => r.1.articleNumber)
    (joinedRows db fun m _ =>
      m.groupId == g.id && decide (low ≤ m.articleNumber) &&
        decide (m.articleNumber ≤ high)))

/-- Method `GetThread`: the scalar subquery resolves the header of the article at
`(group, threadNum)` (first joined row, NULL when there is none); the outer
query selects the numbers of joined rows of the group whose `thread` equals
that extracted message id (`thread = NULL` matches nothing), `ORDER BY
created_at`. -/
def GetThread (db : DB) (g : GroupRow) (threadNum : Int) : List Int :=
  match ((joinedRows db fun m _ =>
      m.groupId == g.id && m.articleNumber == threadNum).head?).bind
      (fun x => msgId x.2.header) with
  | none => []
  | some mid =>
    (sortOn (fun x => x.2.createdAt)
      (joinedRows db fun m a =>
        m.groupId == g.id && a.thread == some mid)).map
      fun x => x.1.articleNumber

/-- The state of a successful `SaveArticle`, `none` on error or panic
(used to chain sequential saves). -/
def saveOk (db : DB) (a : ArticleInput) (gs : List String) : Option DB :=
  match SaveArticle db a gs false with
  | .ok db' => some db'
  | _ => none

/-- The numbering contract of `SaveArticle` for a save into the single
group resolved from `v`: the run succeeds, the group's number column gains
exactly `max + 1` (so `1` on a fresh group), that number is strictly above
every pre-existing number of the group, and three sequential saves into a
fresh group yield the numbers `1, 2, 3`. -/
def NumberingSpec (db : DB) (a : ArticleInput) (v : String) (g : GroupRow) : Prop :=
  (∃ db', SaveArticle db a [v] false = .ok db' ∧
    numbersOf db' g.id = numbersOf db g.id ++ [maxOr0 (numbersOf db g.id) + 1] ∧
    (numbersOf db g.id = [] → numbersOf db' g.id = [1]) ∧
    ∀ x ∈ numbersOf db g.id, x < maxOr0 (numbersOf db g.id) + 1) ∧
  (numbersOf db g.id = [] → ∀ a2 a3 : ArticleInput,
    (((saveOk db a [v]).bind fun d1 => (saveOk d1 a2 [v]).bind fun d2 =>
        saveOk d2 a3 [v]).map fun d => numbersOf d g.id) = some [1, 2, 3])

/-- The sentinel table of `GetArticleNumbers`: `(0,0)` all numbers of the
group, `(-1,hi)` with `hi` nonzero exactly `hi` when present, `(lo,-1)`
with `lo` neither `0` nor the `-1` sentinel all numbers strictly above
`lo`, `(-1,-1)` nothing, and two plain bounds the open interval. -/
def SentinelSpec (db : DB) (g : GroupRow) : Prop :=
  GetArticleNumbers db g 0 0 = numbersOf db g.id ∧
  (∀ hi : Int, hi ≠ 0 → ∀ n, n ∈ GetArticleNumbers db g (-1) hi ↔
    (n = hi ∧ hi ∈ numbersOf db g.id)) ∧
  (∀ lo : Int, lo ≠ 0 → lo ≠ -1 → ∀ n, n ∈ GetArticleNumbers db g lo (-1) ↔
    (n ∈ numbersOf db g.id ∧ lo < n)) ∧
  GetArticleNumbers db g (-1) (-1) = [] ∧
  (∀ lo hi : Int, lo ≠ 0 → lo ≠ -1 → hi ≠ 0 → hi ≠ -1 →
    ∀ n, n ∈ GetArticleNumbers db g lo hi ↔
      (n ∈ numbersOf db g.id ∧ lo < n ∧ n < hi))

/-- The watermark contract on a non-empty group: low does not exceed high,
both are numbers actually present, and they bound every number present. -/
def MarksSpec (db : DB) (g : GroupRow) : Prop :=
  GetGroupLowWaterMark db g ≤ GetGroupHighWaterMark db g ∧
  GetGroupHighWaterMark db g ∈ numbersOf db g.id ∧
  GetGroupLowWaterMark db g ∈ numbersOf db g.id ∧
  ∀ n ∈ numbersOf db g.id,
    GetGroupLowWaterMark db g ≤ n ∧ n ≤ GetGroupHighWaterMark db g

/-- What a failed multi-group `SaveArticle` run leaves behind: the
`no such newsgroup` error, with the article row already inserted and kept
(one more `articles` row, memberships untouched), the orphan reachable
through `GetNewArticlesSince`. -/
def NonAtomicSpec (db : DB) (a : ArticleInput) (gs : List String) : Prop :=
  SaveArticle db a gs false = .err .noSuchGroup (insertArticleRow db a).1 ∧
  (insertArticleRow db a).1.articles.length = db.articles.length + 1 ∧
  (insertArticleRow db a).1.memberships = db.memberships ∧
  ∀ s, msgId a.header = some s → ∀ t : Int, t < a.createdAt →
    s ∈ GetNewArticlesSince (insertArticleRow db a).1 t

/-- Predicate: `m` is the membership of `g` with the greatest number strictly below
`bound`. -/
def IsMaxBelow (db : DB) (g : GroupRow) (bound : Int) (m : GroupMembership) : Prop :=
  m ∈ db.memberships ∧ m.groupId = g.id ∧ m.articleNumber < bound ∧
  ∀ m' ∈ db.memberships, m'.groupId = g.id → m'.articleNumber < bound →
    m'.articleNumber ≤ m.articleNumber

/-- Predicate: `m` is the membership of `g` with the least number strictly above
`bound`. -/
def IsMinAbove (db : DB) (g : GroupRow) (bound : Int) (m : GroupMembership) : Prop :=
  m ∈ db.memberships ∧ m.groupId = g.id ∧ bound < m.articleNumber ∧
  ∀ m' ∈ db.memberships, m'.groupId = g.id → bound < m'.articleNumber →
    m.articleNumber ≤ m'.articleNumber

/-- Predicate: `(m, ar, mid)` identify the unique article numbered `r` in `g` and its
message id. -/
def RootAt (db : DB) (g : GroupRow) (r : Int) (m : GroupMembership)
    (ar : ArticleRow) (mid : String) : Prop :=
  m ∈ db.memberships ∧ m.groupId = g.id ∧ m.articleNumber = r ∧
  findArticle db m.articleId = some ar ∧ msgId ar.header = some mid ∧
  ∀ m' ∈ db.memberships, m'.groupId = g.id → m'.articleNumber = r → m' = m

/-- Predicate: `out` lists, ordered by creation time, the numbers of exactly the
memberships of `g` whose article's thread field is `mid`. -/
def ThreadRows (db : DB) (g : GroupRow) (mid : String) (out : List Int) : Prop :=
  ∃ rows : List (GroupMembership × ArticleRow),
    (∀ x, x ∈ rows ↔ (x.1 ∈ db.memberships ∧ x.1.groupId = g.id ∧
      findArticle db x.1.articleId = some x.2 ∧ x.2.thread = some mid)) ∧
    rows.Pairwise (fun p q => p.2.createdAt ≤ q.2.createdAt) ∧
    out = rows.map fun x => x.1.articleNumber

/-! Concrete fixtures used by witnesses and counterexamples. -/

/-- A group holding three articles in the fixture `dbW`. -/
def gOne : GroupRow := { id := 1, name := "g1", createdAt := 0 }

/-- A group holding no articles in the fixture `dbW`. -/
def gTwo : GroupRow := { id := 2, name := "g2", createdAt := 0 }

/-- The thread-root article of the fixture `dbW`. -/
def arW1 : ArticleRow :=
  { id := 1, header := [("Message-Id", ["<m1@t>"])], body := "x",
    thread := none, createdAt := 1 }

/-- First reply to `arW1` in the fixture `dbW`. -/
def arW2 : ArticleRow :=
  { id := 2, header := [("Message-Id", ["<m2@t>"])], body := "y",
    thread := some "<m1@t>", createdAt := 2 }

/-- Second reply to `arW1` in the fixture `dbW`. -/
def arW3 : ArticleRow :=
  { id := 3, header := [("Message-Id", ["<m3@t>"])], body := "z",
    thread := some "<m1@t>", createdAt := 3 }

/-- Fixture: two groups; three articles numbered 1..3 in `gOne`, articles
2 and 3 replying to article 1. -/
def dbW : DB :=
  { groups := [gOne, gTwo],
    articles := [arW1, arW2, arW3],
    memberships := [⟨1, 1, 1⟩, ⟨2, 1, 2⟩, ⟨3, 1, 3⟩],
    attachments := [] }

/-- A fresh article to save into the fixtures. -/
def aW : ArticleInput :=
  { header := [("Message-Id", ["<new@t>"])], body := "w", thread := none,
    createdAt := 9, attachments := [] }

/-- Dummy read-side articles carrying the numbers the neighbor queries are
asked about (the Go methods look only at `ArticleNumber`). -/
def artNum (n : Int) : Article :=
  { id := 0, header := [], body := "", thread := none, createdAt := 0,
    articleNumber := n }

/-- The first group of the multi-membership fixture `dbMulti`. -/
def gA : GroupRow := { id := 1, name := "misc.test", createdAt := 0 }

/-- The queried group of the multi-membership fixture `dbMulti`. -/
def gB : GroupRow := { id := 2, name := "alt.test", createdAt := 0 }

/-- Fixture: article 1 belongs to `gA` with number 50 (its first
membership) and to `gB` with number 3; article 2 only to `gB`, number 1. -/
def dbMulti : DB :=
  { groups := [gA, gB],
    articles :=
      [{ id := 1, header := [("Message-Id", ["<a1@t>"])], body := "b1",
         thread := none, createdAt := 10 },
       { id := 2, header := [("Message-Id", ["<a2@t>"])], body := "b2",
         thread := none, createdAt := 20 }],
    memberships := [⟨1, 1, 50⟩, ⟨1, 2, 3⟩, ⟨2, 2, 1⟩],
    attachments := [] }

/-- Fixture for the atomicity counterexample: one group, nothing else. -/
def db5 : DB := { groups := [gOne], articles := [], memberships := [], attachments := [] }

/-- The article whose save into `["g1", "nope"]` fails halfway. -/
def art5 : ArticleInput :=
  { header := [("Message-Id", ["<x@y>"])], body := "b", thread := none,
    createdAt := 5, attachments := [] }

/-- The state `SaveArticle db5 art5 ["g1", "nope"] false` leaves behind. -/
def db5After : DB := (insertArticleRow db5 art5).1

/-! Facts about SQL `max` / `min` over a column. -/

theorem le_foldl_max (b : Int) (l : List Int) : b ≤ l.foldl max b := by
  induction l generalizing b with
  | nil => exact le_refl b
  | cons y ys ih => exact le_trans (le_max_left b y) (ih (max b y))

theorem mem_le_foldl_max {x : Int} {l : List Int} (b : Int) (hx : x ∈ l) :
    x ≤ l.foldl max b := by
  induction l generalizing b with
  | nil => cases hx
  | cons y ys ih =>
    rcases List.mem_cons.mp hx with h | h
    · subst h; exact le_trans (le_max_right b x) (le_foldl_max _ ys)
    · exact ih _ h

theorem foldl_max_mem (b : Int) (l : List Int) :
    l.foldl max b = b ∨ l.foldl max b ∈ l := by
  induction l generalizing b with
  | nil => exact Or.inl rfl
  | cons y ys ih =>
    rcases ih (max b y) with h | h
    · rcases max_choice b y with hm | hm
      · exact Or.inl (by rw [List.foldl_cons, h, hm])
      · exact Or.inr (by rw [List.foldl_cons, h, hm]; exact List.mem_cons_self y ys)
    · exact Or.inr (List.mem_cons_of_mem y h)

theorem le_maxOr0 {x : Int} {l : List Int} (hx : x ∈ l) : x ≤ maxOr0 l := by
  cases l with
  | nil => cases hx
  | cons y ys =>
    rcases List.mem_cons.mp hx with h | h
    · subst h; exact le_foldl_max x ys
    · exact mem_le_foldl_max y h

theorem maxOr0_mem {l : List Int} (h : l ≠ []) : maxOr0 l ∈ l := by
  cases l with
  | nil => exact absurd rfl h
  | cons y ys =>
    rcases foldl_max_mem y ys with h1 | h1
    · rw [maxOr0, h1]; exact List.mem_cons_self y ys
    · rw [maxOr0]; exact List.mem_cons_of_mem y h1

theorem foldl_min_le (b : Int) (l : List Int) : l.foldl min b ≤ b := by
  induction l generalizing b with
  | nil => exact le_refl b
  | cons y ys ih => exact le_trans (ih (min b y)) (min_le_left b y)

theorem foldl_min_le_mem {x : Int} {l : List Int} (b : Int) (hx : x ∈ l) :
    l.foldl min b ≤ x := by
  induction l generalizing b with
  | nil => cases hx
  | cons y ys ih =>
    rcases List.mem_cons.mp hx with h | h
    · subst h; exact le_trans (foldl_min_le _ ys) (min_le_right b x)
    · exact ih _ h

theorem foldl_min_mem (b : Int) (l : List Int) :
    l.foldl min b = b ∨ l.foldl min b ∈ l := by
  induction l generalizing b with
  | nil => exact Or.inl rfl
  | cons y ys ih =>
    rcases ih (min b y) with h | h
    · rcases min_choice b y with hm | hm
      · exact Or.inl (by rw [List.foldl_cons, h, hm])
      · exact Or.inr (by rw [List.foldl_cons, h, hm]; exact List.mem_cons_self y ys)
    · exact Or.inr (List.mem_cons_of_mem y h)

theorem minOr0_le {x : Int} {l : List Int} (hx : x ∈ l) : minOr0 l ≤ x := by
  cases l with
  | nil => cases hx
  | cons y ys =>
    rcases List.mem_cons.mp hx with h | h
    · subst h; exact foldl_min_le x ys
    · exact foldl_min_le_mem y h

theorem minOr0_mem {l : List Int} (h : l ≠ []) : minOr0 l ∈ l := by
  cases l with
  | nil => exact absurd rfl h
  | cons y ys =>
    rcases foldl_min_mem y ys with h1 | h1
    · rw [minOr0, h1]; exact List.mem_cons_self y ys
    · rw [minOr0]; exact List.mem_cons_of_mem y h1

/-! Facts about the `ORDER BY` model `sortOn`. -/

theorem mem_insertSorted {key : α → Int} {x a : α} {l : List α} :
    a ∈ insertSorted key x l ↔ a = x ∨ a ∈ l := by
  induction l with
  | nil => simp [insertSorted]
  | cons y ys ih =>
    by_cases h : key x ≤ key y
    · simp [insertSorted, h]
    · simp [insertSorted, h, ih]
      tauto

theorem pairwise_insertSorted {key : α → Int} {x : α} {l : List α}
    (h : l.Pairwise (fun p q => key p ≤ key q)) :
    (insertSorted key x l).Pairwise (fun p q => key p ≤ key q) := by
  induction l with
  | nil => simp [insertSorted]
  | cons y ys ih =>
    rcases List.pairwise_cons.mp h with ⟨hy, hys⟩
    by_cases hxy : key x ≤ key y
    · rw [insertSorted, if_pos hxy]
      refine List.pairwise_cons.mpr ⟨?_, h⟩
      intro a ha
      rcases List.mem_cons.mp ha with rfl | ha
      · exact hxy
      · exact le_trans hxy (hy a ha)
    · rw [insertSorted, if_neg hxy]
      refine List.pairwise_cons.mpr ⟨?_, ih hys⟩
      intro a ha
      rcases mem_insertSorted.mp ha with rfl | ha
      · exact le_of_not_le hxy
      · exact hy a ha

theorem pairwise_sortOn (key : α → Int) (l : List α) :
    (sortOn key l).Pairwise (fun p q => key p ≤ key q) := by
  induction l with
  | nil => simp [sortOn]
  | cons x xs ih => exact pairwise_insertSorted ih

theorem mem_sortOn {key : α → Int} {a : α} {l : List α} :
    a ∈ sortOn key l ↔ a ∈ l := by
  induction l with
  | nil => simp [sortOn]
  | cons x xs ih => simp [sortOn, mem_insertSorted, ih]

theorem sortOn_eq_nil {key : α → Int} {l : List α} :
    sortOn key l = [] ↔ l = [] := by
  constructor
  · intro h
    cases l with
    | nil => rfl
    | cons x xs =>
      exfalso
      have hx : x ∈ sortOn key (x :: xs) := mem_sortOn.mpr (List.mem_cons_self x xs)
      rw [h] at hx
      cases hx
  · intro h; subst h; rfl

theorem sortOn_head_min {key : α → Int} {l : List α} {m : α}
    (h : (sortOn key l).head? = some m) : m ∈ l ∧ ∀ x ∈ l, key m ≤ key x := by
  cases hs : sortOn key l with
  | nil => rw [hs] at h; cases h
  | cons a rest =>
    rw [hs] at h
    have ham : a = m := by injection h
    subst ham
    have hp := pairwise_sortOn key l
    rw [hs] at hp
    rcases List.pairwise_cons.mp hp with ⟨hle, _⟩
    refine ⟨mem_sortOn.mp (hs ▸ List.mem_cons_self a rest), ?_⟩
    intro x hx
    have hx' : x ∈ sortOn key l := mem_sortOn.mpr hx
    rw [hs] at hx'
    rcases List.mem_cons.mp hx' with rfl | hx''
    · exact le_refl _
    · exact hle x hx''

theorem sortOn_head_max (key : α → Int) {l : List α} {m : α}
    (h : (sortOn (fun x => -key x) l).head? = some m) :
    m ∈ l ∧ ∀ x ∈ l, key x ≤ key m := by
  rcases sortOn_head_min h with ⟨hm, hle⟩
  exact ⟨hm, fun x hx => neg_le_neg_iff.mp (hle x hx)⟩

theorem sortOn_head_of_ne_nil (key : α → Int) {l : List α} (h : l ≠ []) :
    ∃ m, (sortOn key l).head? = some m := by
  cases hs : sortOn key l with
  | nil => exact absurd (sortOn_eq_nil.mp hs) h
  | cons a rest => exact ⟨a, rfl⟩

/-! Facts about the join and the repopulation lookup. -/

theorem mem_joinedRows {db : DB} {p : GroupMembership → ArticleRow → Bool}
    {r : GroupMembership × ArticleRow} :
    r ∈ joinedRows db p ↔
      (r.1 ∈ db.memberships ∧ findArticle db r.1.articleId = some r.2 ∧
        p r.1 r.2 = true) := by
  unfold joinedRows
  rw [List.mem_filterMap]
  constructor
  · rintro ⟨m, hm, hf⟩
    cases hfa : findArticle db m.articleId with
    | none => rw [hfa] at hf; cases hf
    | some a =>
      rw [hfa] at hf
      by_cases hp : p m a
      · rw [Option.some_bind, if_pos hp] at hf
        cases hf
        exact ⟨hm, hfa, hp⟩
      · rw [Option.some_bind, if_neg hp] at hf
        cases hf
  · rintro ⟨hm, hf, hp⟩
    exact ⟨r.1, hm, by rw [hf, Option.some_bind, if_pos hp]⟩

theorem joinedRows_eq_nil {db : DB} {p : GroupMembership → ArticleRow → Bool}
    (h : ∀ m ∈ db.memberships, ∀ a, p m a = false) : joinedRows db p = [] := by
  rw [List.eq_nil_iff_forall_not_mem]
  intro r hr
  rcases mem_joinedRows.mp hr with ⟨hm, _, hp⟩
  rw [h r.1 hm r.2] at hp
  cases hp

theorem head_filterMap_unique {α β : Type _} {f : α → Option β} {l : List α}
    {x : α} {y : β} (hx : x ∈ l) (hfx : f x = some y)
    (huniq : ∀ a ∈ l, ∀ b, f a = some b → b = y) :
    (l.filterMap f).head? = some y := by
  induction l with
  | nil => cases hx
  | cons a t ih =>
    cases hfa : f a with
    | some b =>
      have hb : b = y := huniq a (List.mem_cons_self a t) b hfa
      subst hb
      simp [List.filterMap_cons, hfa]
    | none =>
      rcases List.mem_cons.mp hx with rfl | hx'
      · rw [hfa] at hfx; cases hfx
      · simpa [List.filterMap_cons, hfa] using
          ih hx' (fun a' ha' b hb => huniq a' (List.mem_cons_of_mem _ ha') b hb)

theorem firstNum_isSome {db : DB} {m : GroupMembership}
    (h : m ∈ db.memberships) : ∃ n, firstNum db m.articleId = some n := by
  unfold firstNum
  have hmem : m ∈ db.memberships.filter (fun m' => m'.articleId == m.articleId) :=
    List.mem_filter.mpr ⟨h, by simp⟩
  cases hl : db.memberships.filter (fun m' => m'.articleId == m.articleId) with
  | nil => rw [hl] at hmem; cases hmem
  | cons a rest => exact ⟨a.articleNumber, rfl⟩

/-! Facts about `SaveArticle` and its write phases. -/

theorem GetGroup_eq_of_groups {db1 db2 : DB} (h : db1.groups = db2.groups)
    (s : String) : GetGroup db1 s = GetGroup db2 s := by
  unfold GetGroup
  rw [h]

theorem GetGroup_ok_or_noRows (db : DB) (s : String) :
    (∃ g, GetGroup db s = .ok g) ∨ GetGroup db s = .error .noRows := by
  unfold GetGroup
  cases (db.groups.filter (fun g => g.name == s)).head? with
  | none => exact Or.inr rfl
  | some g => exact Or.inl ⟨g, rfl⟩

theorem resolveGroups_error {db : DB} {l : List String}
    (h : ∃ v ∈ l, GetGroup db (trimSpace v) = .error .noRows) :
    resolveGroups db l = .error .noSuchGroup := by
  induction l with
  | nil => rcases h with ⟨v, hv, _⟩; cases hv
  | cons w rest ih =>
    rcases h with ⟨v, hv, hverr⟩
    rcases GetGroup_ok_or_noRows db (trimSpace w) with ⟨g, hw⟩ | hw
    · rcases List.mem_cons.mp hv with rfl | hv'
      · rw [hverr] at hw; cases hw
      · rw [resolveGroups, hw, ih ⟨v, hv', hverr⟩]
        rfl
    · rw [resolveGroups, hw]

theorem resolveGroups_all_ok {db : DB} {l : List String}
    (h : ∀ v ∈ l, ∃ g, GetGroup db (trimSpace v) = Except.ok g) :
    ∃ ids, resolveGroups db l = .ok ids := by
  induction l with
  | nil => exact ⟨[], rfl⟩
  | cons w rest ih =>
    rcases h w (List.mem_cons_self w rest) with ⟨g, hg⟩
    rcases ih (fun v hv => h v (List.mem_cons_of_mem w hv)) with ⟨ids, hids⟩
    exact ⟨g.id :: ids, by rw [resolveGroups, hg, hids]; rfl⟩

theorem insertMemberships_groups (db : DB) (aid : Nat) (l : List Nat) :
    (insertMemberships db aid l).groups = db.groups := by
  induction l generalizing db with
  | nil => rfl
  | cons gid rest ih => rw [insertMemberships, ih]

theorem insertAttachments_groups (db : DB) (aid : Nat) (l : List (String × String)) :
    (insertAttachments db aid l).groups = db.groups := by
  induction l generalizing db with
  | nil => rfl
  | cons ct rest ih =>
    rw [insertAttachments.eq_def]
    cases ct
    rw [ih]

theorem insertAttachments_memberships (db : DB) (aid : Nat)
    (l : List (String × String)) :
    (insertAttachments db aid l).memberships = db.memberships := by
  induction l generalizing db with
  | nil => rfl
  | cons ct rest ih =>
    rw [insertAttachments.eq_def]
    cases ct
    rw [ih]

theorem numbersOf_eq_of_memberships {db1 db2 : DB}
    (h : db1.memberships = db2.memberships) (gid : Nat) :
    numbersOf db1 gid = numbersOf db2 gid := by
  unfold numbersOf
  rw [h]

theorem numbersOf_append_single (db : DB) (m : GroupMembership) (gid : Nat) :
    numbersOf { db with memberships := db.memberships ++ [m] } gid =
      numbersOf db gid ++ (if m.groupId == gid then [m.articleNumber] else []) := by
  unfold numbersOf
  show (List.filter _ (db.memberships ++ [m])).map _ = _
  rw [List.filter_append, List.map_append]
  by_cases h : m.groupId == gid
  · rw [if_pos h]
    simp [List.filter, h]
  · rw [if_neg h]
    simp only [List.filter, h]
    rfl

theorem SaveArticle_eq_match (db : DB) (a : ArticleInput) (gs : List String) :
    SaveArticle db a gs false =
      match resolveGroups (insertArticleRow db a).1 gs with
      | .error e => .err e (insertArticleRow db a).1
      | .ok groupIDs =>
        .ok (insertAttachments
          (insertMemberships (insertArticleRow db a).1 (insertArticleRow db a).2
            groupIDs)
          (insertArticleRow db a).2 a.attachments) := rfl

theorem save_step {db : DB} (a : ArticleInput) {v : String} {g : GroupRow}
    (hg : GetGroup db (trimSpace v) = Except.ok g) :
    ∃ db', SaveArticle db a [v] false = .ok db' ∧ db'.groups = db.groups ∧
      db'.memberships = db.memberships ++
        [⟨(insertArticleRow db a).2, g.id, maxOr0 (numbersOf db g.id) + 1⟩] := by
  have hgroups1 : (insertArticleRow db a).1.groups = db.groups := rfl
  have hmem1 : (insertArticleRow db a).1.memberships = db.memberships := rfl
  have hg1 : GetGroup (insertArticleRow db a).1 (trimSpace v) = Except.ok g := by
    rw [GetGroup_eq_of_groups hgroups1, hg]
  have hres : resolveGroups (insertArticleRow db a).1 [v] = .ok [g.id] := by
    rw [resolveGroups, hg1, resolveGroups]
    rfl
  refine ⟨insertAttachments
      (insertMemberships (insertArticleRow db a).1 (insertArticleRow db a).2 [g.id])
      (insertArticleRow db a).2 a.attachments, ?_, ?_, ?_⟩
  · rw [SaveArticle_eq_match, hres]
  · rw [insertAttachments_groups, insertMemberships_groups, hgroups1]
  · rw [insertAttachments_memberships]
    have hnum : nextArticleNumber (insertArticleRow db a).1 g.id =
        maxOr0 (numbersOf db g.id) + 1 := by
      unfold nextArticleNumber
      rw [numbersOf_eq_of_memberships hmem1]
    show (insertArticleRow db a).1.memberships ++
        [⟨(insertArticleRow db a).2, g.id,
          nextArticleNumber (insertArticleRow db a).1 g.id⟩] = _
    rw [hnum, hmem1]

theorem SaveArticle_err_of_unresolved {db : DB} {a : ArticleInput}
    {gs : List String} (h : ∃ v ∈ gs, GetGroup db (trimSpace v) = .error .noRows) :
    SaveArticle db a gs false = .err .noSuchGroup (insertArticleRow db a).1 := by
  have hgroups1 : (insertArticleRow db a).1.groups = db.groups := rfl
  have h1 : ∃ v ∈ gs, GetGroup (insertArticleRow db a).1 (trimSpace v) = .error .noRows := by
    rcases h with ⟨v, hv, hverr⟩
    exact ⟨v, hv, by rw [GetGroup_eq_of_groups hgroups1, hverr]⟩
  rw [SaveArticle_eq_match, resolveGroups_error h1]

theorem numbersOf_after_insert {db db' : DB} {gid aid : Nat} {n : Int}
    (h : db'.memberships = db.memberships ++ [⟨aid, gid, n⟩]) :
    numbersOf db' gid = numbersOf db gid ++ [n] := by
  have hx := numbersOf_append_single db ⟨aid, gid, n⟩ gid
  rw [if_pos (by simp)] at hx
  have h2 := numbersOf_eq_of_memberships
    (show db'.memberships =
      ({ db with memberships := db.memberships ++ [⟨aid, gid, n⟩] } : DB).memberships
      from h) gid
  rw [h2, hx]

/-! The claims. -/

/-- C9: when the initial article `INSERT` itself fails, `SaveArticle`
dereferences the nil statement result (`res.LastInsertId()` runs before the
`Exec` error is examined) and panics instead of returning the error. -/
theorem saveArticle_panic_on_failed_insert (db : DB) (a : ArticleInput)
    (gs : List String) : SaveArticle db a gs true = .panicked := rfl

/-- C4: the high (low) watermark of a group is the maximum (minimum) article
number present, both are total and `0` on a group with no memberships, and
on a non-empty group the low watermark bounds the high watermark from
below. -/
theorem waterMarks_of_group (db : DB) (g : GroupRow) :
    (GetArticlesCount db g = 0 →
      GetGroupHighWaterMark db g = 0 ∧ GetGroupLowWaterMark db g = 0) ∧
    (0 < GetArticlesCount db g → MarksSpec db g) := by
  have hlen : (numbersOf db g.id).length = GetArticlesCount db g := by
    unfold numbersOf GetArticlesCount
    rw [List.length_map]
  constructor
  · intro h0
    have hnil : numbersOf db g.id = [] :=
      List.eq_nil_of_length_eq_zero (by rw [hlen, h0])
    unfold GetGroupHighWaterMark GetGroupLowWaterMark
    rw [hnil]
    exact ⟨rfl, rfl⟩
  · intro hpos
    have hne : numbersOf db g.id ≠ [] := by
      intro h
      rw [← hlen, h] at hpos
      simp at hpos
    refine ⟨minOr0_le (maxOr0_mem hne), maxOr0_mem hne, minOr0_mem hne, ?_⟩
    intro n hn
    exact ⟨minOr0_le hn, le_maxOr0 hn⟩

/-- C4 witness: on the fixture, the empty group `gTwo` has both watermarks
`0`, and the populated group `gOne` satisfies the watermark contract. -/
theorem waterMarks_of_group_witness :
    (GetGroupHighWaterMark dbW gTwo = 0 ∧ GetGroupLowWaterMark dbW gTwo = 0) ∧
    MarksSpec dbW gOne :=
  ⟨(waterMarks_of_group dbW gTwo).1 (by decide),
   (waterMarks_of_group dbW gOne).2 (by decide)⟩

/-- C1: a save into the group resolved from `v` assigns exactly
`max(existing numbers) + 1` (so `1` on a fresh group), strictly above all
existing numbers of the group, and three sequential saves into a fresh
group assign `1, 2, 3`. -/
theorem saveArticle_numbering (db : DB) (a : ArticleInput) (v : String)
    (g : GroupRow) (hg : GetGroup db (trimSpace v) = Except.ok g) :
    NumberingSpec db a v g := by
  constructor
  · rcases save_step a hg with ⟨db', hsave, _, hmem⟩
    refine ⟨db', hsave, numbersOf_after_insert hmem, ?_, ?_⟩
    · intro h0
      rw [numbersOf_after_insert hmem, h0]
      rfl
    · intro x hx
      rw [Int.lt_add_one_iff]
      exact le_maxOr0 hx
  · intro h0 a2 a3
    rcases save_step a hg with ⟨d1, hs1, hgr1, hm1⟩
    have hn1 : numbersOf d1 g.id = [1] := by
      rw [numbersOf_after_insert hm1, h0]
      rfl
    have hg1 : GetGroup d1 (trimSpace v) = Except.ok g := by
      rw [GetGroup_eq_of_groups hgr1, hg]
    rcases save_step a2 hg1 with ⟨d2, hs2, hgr2, hm2⟩
    have hn2 : numbersOf d2 g.id = [1, 2] := by
      rw [numbersOf_after_insert hm2, hn1]
      rfl
    have hg2 : GetGroup d2 (trimSpace v) = Except.ok g := by
      rw [GetGroup_eq_of_groups hgr2, hg1]
    rcases save_step a3 hg2 with ⟨d3, hs3, _, hm3⟩
    have hn3 : numbersOf d3 g.id = [1, 2, 3] := by
      rw [numbersOf_after_insert hm3, hn2]
      rfl
    rw [show saveOk db a [v] = some d1 from by rw [saveOk, hs1]]
    rw [Option.some_bind]
    rw [show saveOk d1 a2 [v] = some d2 from by rw [saveOk, hs2]]
    rw [Option.some_bind]
    rw [show saveOk d2 a3 [v] = some d3 from by rw [saveOk, hs3]]
    simp [hn3]

/-- C1 witness: saving into `"g1"` of the fixture appends number
`max{1,2,3} + 1 = 4`. -/
theorem saveArticle_numbering_witness :
    GetGroup dbW (trimSpace "g1") = Except.ok gOne ∧ NumberingSpec dbW aW "g1" gOne :=
  ⟨by rfl, saveArticle_numbering dbW aW "g1" gOne (by rfl)⟩

/-- C2: `GetArticleNumbers` follows the sentinel table: `(0,0)` all numbers
of the group; `(-1,hi)`, `hi` nonzero, exactly `hi` when present; `(lo,-1)`,
`lo` neither `0` nor the `-1` sentinel (that pair is the explicit-empty
case), the numbers strictly above `lo`; `(-1,-1)` empty; two plain bounds
the open interval.  Assumes the stored numbers are at least `1`, as the
numbering algorithm guarantees. -/
theorem getArticleNumbers_sentinels (db : DB) (g : GroupRow)
    (hpos : ∀ n ∈ numbersOf db g.id, 1 ≤ n) : SentinelSpec db g := by
  refine ⟨rfl, ?_, ?_, ?_, ?_⟩
  · intro hi hne n
    have hcond : GetArticleNumbers db g (-1) hi =
        (numbersOf db g.id).filter (fun n => n == hi) := by
      unfold GetArticleNumbers
      rw [if_neg (by simp), if_pos (by simp [hne])]
    rw [hcond, List.mem_filter]
    simp only [beq_iff_eq]
    constructor
    · rintro ⟨hn, rfl⟩; exact ⟨rfl, hn⟩
    · rintro ⟨rfl, hh⟩; exact ⟨hh, rfl⟩
  · intro lo hne0 hne1 n
    have hcond : GetArticleNumbers db g lo (-1) =
        (numbersOf db g.id).filter (fun n => decide (lo < n)) := by
      unfold GetArticleNumbers
      rw [if_neg (by simp), if_neg (by simp [hne1]), if_pos (by simp [hne0])]
    rw [hcond, List.mem_filter]
    simp
  · have hcond : GetArticleNumbers db g (-1) (-1) =
        (numbersOf db g.id).filter (fun n => n == (-1 : Int)) := by
      unfold GetArticleNumbers
      rw [if_neg (by simp), if_pos (by simp)]
    rw [hcond]
    apply List.filter_eq_nil_iff.mpr
    intro n hn
    have h1 := hpos n hn
    simp only [beq_iff_eq]
    omega
  · intro lo hi hlo0 hlo1 hhi0 hhi1 n
    have hcond : GetArticleNumbers db g lo hi =
        (numbersOf db g.id).filter
          (fun n => decide (lo < n) && decide (n < hi)) := by
      unfold GetArticleNumbers
      rw [if_neg (by simp [hhi0]), if_neg (by simp [hlo1]),
        if_neg (by simp [hhi1]), if_neg (by simp [hlo1])]
    rw [hcond, List.mem_filter]
    simp [and_assoc]

/-- C2 witness: the sentinel table holds on the fixture group with numbers
`{1, 2, 3}`. -/
theorem getArticleNumbers_sentinels_witness :
    (∀ n ∈ numbersOf dbW gOne.id, 1 ≤ n) ∧ SentinelSpec dbW gOne :=
  ⟨by decide, getArticleNumbers_sentinels dbW gOne (by decide)⟩

/-- C5 counterexample: saving `art5` into `["g1", "nope"]` fails with
`no such newsgroup`, yet the already-inserted article row remains in the
resulting state and is visible through `GetNewArticlesSince` — the claimed
atomicity does not hold. -/
theorem saveArticle_atomicity_cex :
    SaveArticle db5 art5 ["g1", "nope"] false = .err .noSuchGroup db5After ∧
    db5After.articles ≠ [] ∧ GetNewArticlesSince db5After 0 = ["<x@y>"] :=
  ⟨by rfl, by decide, by rfl⟩

/-- C5 (amended): `SaveArticle` is not atomic — when a group name fails to
resolve after the article insert, the run errors with `no such newsgroup`
but the article row stays behind (memberships untouched), and the orphan is
returned by `GetNewArticlesSince`. -/
theorem saveArticle_not_atomic (db : DB) (a : ArticleInput) (gs : List String)
    (h : ∃ v ∈ gs, GetGroup db (trimSpace v) = .error .noRows) :
    NonAtomicSpec db a gs := by
  refine ⟨SaveArticle_err_of_unresolved h, ?_, rfl, ?_⟩
  · show (db.articles ++ [_]).length = _
    rw [List.length_append]
    rfl
  · intro s hs t ht
    unfold GetNewArticlesSince
    show s ∈ (db.articles ++ [_]).filterMap _
    rw [List.filterMap_append]
    apply List.mem_append_right
    simp [ht, hs]

/-- C5 witness: the non-atomic outcome is realised by the concrete failed
save of `art5` into `["g1", "nope"]`. -/
theorem saveArticle_not_atomic_witness :
    (∃ v ∈ ["g1", "nope"], GetGroup db5 (trimSpace v) = .error .noRows) ∧
    NonAtomicSpec db5 art5 ["g1", "nope"] :=
  ⟨⟨"nope", by decide, by rfl⟩,
   saveArticle_not_atomic db5 art5 ["g1", "nope"] ⟨"nope", by decide, by rfl⟩⟩

/-- C6: `SaveArticle` resolves each supplied group name after trimming
surrounding whitespace; if any trimmed name does not resolve it fails with
the domain error `no such newsgroup` (not the raw no-rows signal), and if
all resolve the save succeeds. -/
theorem saveArticle_trims_and_reports (db : DB) (a : ArticleInput)
    (gs : List String) :
    ((∃ v ∈ gs, GetGroup db (trimSpace v) = .error .noRows) →
      SaveArticle db a gs false = .err .noSuchGroup (insertArticleRow db a).1) ∧
    ((∀ v ∈ gs, ∃ g, GetGroup db (trimSpace v) = Except.ok g) →
      ∃ db', SaveArticle db a gs false = .ok db') := by
  constructor
  · exact fun h => SaveArticle_err_of_unresolved h
  · intro h
    have h1 : ∀ v ∈ gs, ∃ g,
        GetGroup (insertArticleRow db a).1 (trimSpace v) = Except.ok g := by
      intro v hv
      rcases h v hv with ⟨g, hg⟩
      have hgr : (insertArticleRow db a).1.groups = db.groups := rfl
      exact ⟨g, by rw [GetGroup_eq_of_groups hgr, hg]⟩
    rcases resolveGroups_all_ok h1 with ⟨ids, hids⟩
    exact ⟨_, by rw [SaveArticle_eq_match, hids]⟩

/-- C6 witness: an unresolvable name yields `no such newsgroup`, while the
whitespace-wrapped name `" g1 "` resolves after trimming and the save
succeeds. -/
theorem saveArticle_trims_and_reports_witness :
    SaveArticle dbW aW ["nope"] false =
      .err .noSuchGroup (insertArticleRow dbW aW).1 ∧
    ∃ db', SaveArticle dbW aW [" g1 "] false = .ok db' :=
  ⟨(saveArticle_trims_and_reports dbW aW ["nope"]).1 ⟨"nope", by decide, by rfl⟩,
   (saveArticle_trims_and_reports dbW aW [" g1 "]).2 (by
      intro v hv
      have hv' : v = " g1 " := by simpa using hv
      subst hv'
      exact ⟨gOne, by rfl⟩)⟩

/-- Each repopulation lookup of `populateAll` succeeds when every row's
membership is a stored membership (the join guarantees this), and then the
loop returns exactly the populated articles. -/
theorem populateAll_eq_map {db : DB} {rows : List (GroupMembership × ArticleRow)}
    (h : ∀ r ∈ rows, r.1 ∈ db.memberships) :
    populateAll db rows = .ok (rows.map fun r => populate db r.1 r.2) := by
  induction rows with
  | nil => rfl
  | cons r rest ih =>
    rcases firstNum_isSome (h r (List.mem_cons_self r rest)) with ⟨n, hn⟩
    have ih' := ih fun x hx => h x (List.mem_cons_of_mem _ hx)
    simp [populateAll, hn, ih', populate, Except.map]

/-- C3 (amended): `GetArticlesByRange` returns, in ascending order of their
number in the queried group, exactly the articles whose number in that
group lies in the closed interval `[low, high]`, each carrying its header
and the article number of the article's first stored membership over all
groups (`populate`) — which is its number in the queried group only when
that membership comes first. -/
theorem getArticlesByRange_spec (db : DB) (g : GroupRow) (low high : Int) :
    ∃ rows : List (GroupMembership × ArticleRow),
      (∀ r, r ∈ rows ↔ (r.1 ∈ db.memberships ∧ r.1.groupId = g.id ∧
        low ≤ r.1.articleNumber ∧ r.1.articleNumber ≤ high ∧
        findArticle db r.1.articleId = some r.2)) ∧
      rows.Pairwise (fun p q => p.1.articleNumber ≤ q.1.articleNumber) ∧
      GetArticlesByRange db g low high =
        .ok (rows.map fun r => populate db r.1 r.2) := by
  refine ⟨sortOn (fun r => r.1.articleNumber)
      (joinedRows db fun m _ =>
        m.groupId == g.id && decide (low ≤ m.articleNumber) &&
          decide (m.articleNumber ≤ high)), ?_, pairwise_sortOn _ _, ?_⟩
  · intro r
    rw [mem_sortOn, mem_joinedRows]
    simp only [Bool.and_eq_true, decide_eq_true_eq, beq_iff_eq]
    tauto
  · unfold GetArticlesByRange
    apply populateAll_eq_map
    intro r hr
    exact (mem_joinedRows.mp (mem_sortOn.mp hr)).1

/-- C3 counterexample: in `dbMulti`, querying `gB` for the closed range
`[3, 3]` returns the article whose number in `gB` is `3`, but populated
with `50` — its number in `gA` — which is not a number of `gB` at all; the
claim that each result carries its article number in the queried group
fails. -/
theorem getArticlesByRange_number_cex :
    (GetArticlesByRange dbMulti gB 3 3).map
      (fun l => l.map fun a => a.articleNumber) = .ok [50] ∧
    numbersOf dbMulti gB.id = [3, 1] ∧ (50 : Int) ∉ numbersOf dbMulti gB.id :=
  ⟨by rfl, by rfl, by decide⟩

/-- C10: in `dbMulti`, article 1 is in `gA` (number 50, first membership)
and in `gB` (number 3); all three read paths repopulate the number with a
lookup keyed on the article id alone, so querying `gB` yields articles
populated with `50`, a number of a different group. -/
theorem crossGroup_number_population :
    (GetArticlesByRange dbMulti gB 1 10).map
      (fun l => l.map fun a => a.articleNumber) = .ok [1, 50] ∧
    (GetLastArticleByNum dbMulti gB (artNum 9)).map
      (fun a => a.articleNumber) = .ok 50 ∧
    (GetNextArticleByNum dbMulti gB (artNum 1)).map
      (fun a => a.articleNumber) = .ok 50 ∧
    numbersOf dbMulti gB.id = [3, 1] ∧ (50 : Int) ∉ numbersOf dbMulti gB.id :=
  ⟨by rfl, by rfl, by rfl, by rfl, by decide⟩

/-- C7: `GetLastArticleByNum` returns the article of the membership with
the greatest number strictly below the given article's number in the
group, `GetNextArticleByNum` the one with the least number strictly above
it; both fail with the no-rows (NotFound) signal when no such neighbor
exists.  Assumes every membership's article row exists (referential
integrity of the join). -/
theorem lastNext_strict_neighbors (db : DB) (g : GroupRow) (a : Article)
    (hart : ∀ m ∈ db.memberships, (findArticle db m.articleId).isSome) :
    ((∀ m ∈ db.memberships,
        ¬(m.groupId = g.id ∧ m.articleNumber < a.articleNumber)) →
      GetLastArticleByNum db g a = .error .noRows) ∧
    (∀ m0 ∈ db.memberships, m0.groupId = g.id →
      m0.articleNumber < a.articleNumber →
      ∃ m ar, IsMaxBelow db g a.articleNumber m ∧
        findArticle db m.articleId = some ar ∧
        GetLastArticleByNum db g a = .ok (populate db m ar)) ∧
    ((∀ m ∈ db.memberships,
        ¬(m.groupId = g.id ∧ a.articleNumber < m.articleNumber)) →
      GetNextArticleByNum db g a = .error .noRows) ∧
    (∀ m0 ∈ db.memberships, m0.groupId = g.id →
      a.articleNumber < m0.articleNumber →
      ∃ m ar, IsMinAbove db g a.articleNumber m ∧
        findArticle db m.articleId = some ar ∧
        GetNextArticleByNum db g a = .ok (populate db m ar)) := by
  refine ⟨?_, ?_, ?_, ?_⟩
  · intro hemp
    have hj : joinedRows db (fun m _ =>
        m.groupId == g.id && decide (m.articleNumber < a.articleNumber)) = [] := by
      apply joinedRows_eq_nil
      intro m hm ar
      rw [← Bool.not_eq_true]
      simp only [Bool.and_eq_true, beq_iff_eq, decide_eq_true_eq]
      exact hemp m hm
    unfold GetLastArticleByNum
    rw [hj]
    rfl
  · intro m0 hm0 hgid0 hlt0
    rcases Option.isSome_iff_exists.mp (hart m0 hm0) with ⟨ar0, har0⟩
    have hne : joinedRows db (fun m _ =>
        m.groupId == g.id && decide (m.articleNumber < a.articleNumber)) ≠ [] := by
      intro hnil
      have : (m0, ar0) ∈ joinedRows db (fun m _ =>
          m.groupId == g.id && decide (m.articleNumber < a.articleNumber)) :=
        mem_joinedRows.mpr ⟨hm0, har0, by simp [hgid0, hlt0]⟩
      rw [hnil] at this
      cases this
    rcases sortOn_head_of_ne_nil (fun r : GroupMembership × ArticleRow => -r.1.articleNumber) hne
      with ⟨⟨m, ar⟩, hhead⟩
    rcases sortOn_head_max (fun r : GroupMembership × ArticleRow => r.1.articleNumber) hhead with ⟨hjmem, hmax⟩
    rcases mem_joinedRows.mp hjmem with ⟨hm, hfa, hp⟩
    simp only [Bool.and_eq_true, beq_iff_eq, decide_eq_true_eq] at hp
    rcases firstNum_isSome hm with ⟨n, hn⟩
    refine ⟨m, ar, ⟨hm, hp.1, hp.2, ?_⟩, hfa, ?_⟩
    · intro m' hm' hgid' hlt'
      rcases Option.isSome_iff_exists.mp (hart m' hm') with ⟨ar', har'⟩
      exact hmax (m', ar')
        (mem_joinedRows.mpr ⟨hm', har', by simp [hgid', hlt']⟩)
    · simp only [GetLastArticleByNum, hhead, hn, populate]
      rfl
  · intro hemp
    have hj : joinedRows db (fun m _ =>
        m.groupId == g.id && decide (a.articleNumber < m.articleNumber)) = [] := by
      apply joinedRows_eq_nil
      intro m hm ar
      rw [← Bool.not_eq_true]
      simp only [Bool.and_eq_true, beq_iff_eq, decide_eq_true_eq]
      exact hemp m hm
    unfold GetNextArticleByNum
    rw [hj]
    rfl
  · intro m0 hm0 hgid0 hlt0
    rcases Option.isSome_iff_exists.mp (hart m0 hm0) with ⟨ar0, har0⟩
    have hne : joinedRows db (fun m _ =>
        m.groupId == g.id && decide (a.articleNumber < m.articleNumber)) ≠ [] := by
      intro hnil
      have : (m0, ar0) ∈ joinedRows db (fun m _ =>
          m.groupId == g.id && decide (a.articleNumber < m.articleNumber)) :=
        mem_joinedRows.mpr ⟨hm0, har0, by simp [hgid0, hlt0]⟩
      rw [hnil] at this
      cases this
    rcases sortOn_head_of_ne_nil (fun r : GroupMembership × ArticleRow => r.1.articleNumber) hne
      with ⟨⟨m, ar⟩, hhead⟩
    rcases sortOn_head_min hhead with ⟨hjmem, hmin⟩
    rcases mem_joinedRows.mp hjmem with ⟨hm, hfa, hp⟩
    simp only [Bool.and_eq_true, beq_iff_eq, decide_eq_true_eq] at hp
    rcases firstNum_isSome hm with ⟨n, hn⟩
    refine ⟨m, ar, ⟨hm, hp.1, hp.2, ?_⟩, hfa, ?_⟩
    · intro m' hm' hgid' hlt'
      rcases Option.isSome_iff_exists.mp (hart m' hm') with ⟨ar', har'⟩
      exact hmin (m', ar')
        (mem_joinedRows.mpr ⟨hm', har', by simp [hgid', hlt']⟩)
    · simp only [GetNextArticleByNum, hhead, hn, populate]
      rfl

/-- C7 witness: in the fixture group with numbers `{1, 2, 3}`, the
predecessor of number 1 and the successor of number 3 fail with no rows,
while number 2 has both strict neighbors. -/
theorem lastNext_strict_neighbors_witness :
    (∀ m ∈ dbW.memberships, (findArticle dbW m.articleId).isSome) ∧
    GetLastArticleByNum dbW gOne (artNum 1) = .error .noRows ∧
    (∃ m ar, IsMaxBelow dbW gOne (artNum 2).articleNumber m ∧
      findArticle dbW m.articleId = some ar ∧
      GetLastArticleByNum dbW gOne (artNum 2) = .ok (populate dbW m ar)) ∧
    GetNextArticleByNum dbW gOne (artNum 3) = .error .noRows ∧
    (∃ m ar, IsMinAbove dbW gOne (artNum 2).articleNumber m ∧
      findArticle dbW m.articleId = some ar ∧
      GetNextArticleByNum dbW gOne (artNum 2) = .ok (populate dbW m ar)) :=
  ⟨by decide,
   (lastNext_strict_neighbors dbW gOne (artNum 1) (by decide)).1 (by decide),
   (lastNext_strict_neighbors dbW gOne (artNum 2) (by decide)).2.1
     ⟨1, 1, 1⟩ (by decide) (by decide) (by decide),
   (lastNext_strict_neighbors dbW gOne (artNum 3) (by decide)).2.2.1 (by decide),
   (lastNext_strict_neighbors dbW gOne (artNum 2) (by decide)).2.2.2
     ⟨3, 1, 3⟩ (by decide) (by decide) (by decide)⟩

/-- The scalar root subquery of `GetThread` resolves to the unique joined
row at `(group, number)`. -/
theorem joinedRows_head_unique {db : DB} {p : GroupMembership → ArticleRow → Bool}
    {m : GroupMembership} {ar : ArticleRow} (hm : m ∈ db.memberships)
    (hfa : findArticle db m.articleId = some ar) (hp : p m ar = true)
    (huniq : ∀ m' ∈ db.memberships, ∀ ar',
      findArticle db m'.articleId = some ar' → p m' ar' = true → m' = m) :
    (joinedRows db p).head? = some (m, ar) := by
  unfold joinedRows
  apply head_filterMap_unique hm
  · rw [hfa, Option.some_bind, if_pos hp]
  · rintro m' hm' ⟨m'', ar''⟩ hb
    cases hfa' : findArticle db m'.articleId with
    | none => rw [hfa', Option.none_bind] at hb; cases hb
    | some a' =>
      rw [hfa', Option.some_bind] at hb
      by_cases hp' : p m' a'
      · rw [if_pos hp'] at hb
        injection hb with hb1
        rw [← hb1]
        have hmm : m' = m := huniq m' hm' a' hfa' hp'
        subst hmm
        rw [hfa'] at hfa
        injection hfa with hfa1
        rw [hfa1]
      · rw [if_neg hp'] at hb
        cases hb

/-- C8: `GetThread` lists, ordered by creation time, the numbers of the
group's articles whose thread field equals the message id of the article
numbered `r` in the group; when no article of the group has number `r` the
result is the empty sequence (`thread = NULL` matches nothing),
indistinguishable from a root with no replies. -/
theorem getThread_replies (db : DB) (g : GroupRow) (r : Int) :
    ((∀ m ∈ db.memberships, ¬(m.groupId = g.id ∧ m.articleNumber = r)) →
      GetThread db g r = []) ∧
    (∀ m ar mid, RootAt db g r m ar mid →
      ThreadRows db g mid (GetThread db g r)) := by
  constructor
  · intro hemp
    have hj : joinedRows db (fun m _ =>
        m.groupId == g.id && m.articleNumber == r) = [] := by
      apply joinedRows_eq_nil
      intro m hm ar
      rw [← Bool.not_eq_true]
      simp only [Bool.and_eq_true, beq_iff_eq]
      exact hemp m hm
    unfold GetThread
    rw [hj]
    rfl
  · rintro m ar mid ⟨hm, hgid, hnum, hfa, hmid, huniq⟩
    have hroot : (joinedRows db (fun m' _ =>
        m'.groupId == g.id && m'.articleNumber == r)).head? = some (m, ar) := by
      apply joinedRows_head_unique hm hfa
      · simp [hgid, hnum]
      · intro m' hm' ar' _ hp'
        simp only [Bool.and_eq_true, beq_iff_eq] at hp'
        exact huniq m' hm' hp'.1 hp'.2
    have hscrut : ((joinedRows db (fun m' _ =>
        m'.groupId == g.id && m'.articleNumber == r)).head?).bind
        (fun x => msgId x.2.header) = some mid := by
      rw [hroot, Option.some_bind, hmid]
    refine ⟨sortOn (fun x => x.2.createdAt)
      (joinedRows db fun m' a' => m'.groupId == g.id && a'.thread == some mid),
      ?_, pairwise_sortOn _ _, ?_⟩
    · intro x
      rw [mem_sortOn, mem_joinedRows]
      simp only [Bool.and_eq_true, beq_iff_eq]
      tauto
    · unfold GetThread
      rw [hscrut]

/-- C8 witness: in the fixture, a number absent from the empty group gives
the empty thread, and the thread rooted at number 1 of `gOne` is the two
replies in creation order. -/
theorem getThread_replies_witness :
    GetThread dbW gTwo 1 = [] ∧
    ThreadRows dbW gOne "<m1@t>" (GetThread dbW gOne 1) :=
  ⟨(getThread_replies dbW gTwo 1).1 (by decide),
   (getThread_replies dbW gOne 1).2 ⟨1, 1, 1⟩ arW1 "<m1@t>"
     ⟨by decide, by decide, by decide, by decide, by decide, by decide⟩⟩

end Yans
